import Mathlib

/-!
Shallow embedding of `src/maskcam/mqtt_common.py` (maskcam repository).

The embedded fragment is the resilient MQTT publish core:

* `mqtt_msg_queue = Queue(maxsize=100)` — the bounded Outbox, modelled as a
  `List QMsg` (head = oldest) inside `MState`, with capacity `100`.
* `mqtt_send_queue(mqtt_client)` — the drain loop
  (`while not empty and success: get_nowait; send`), modelled by
  `mqtt_send_queueF`.
* `mqtt_send_msg(mqtt_client, topic, message, enqueue=True)` — the publish
  entry point, modelled by `mqtt_send_msgF` (Bool result, as in the source)
  and by `mqtt_send_msg_outcomeF` (the same branches, classified by which
  log branch of the source fires: skip / SENT / ENQUEUED / DROPPED /
  DISCARDED).
* `cb_on_connect` inside `mqtt_connect_broker` — modelled by `cb_on_connect`,
  recording the side effects (subscribe, success callback, drain) as an
  ordered action trace.

The two Python functions are mutually recursive (`mqtt_send_msg` line 74
calls `mqtt_send_queue`, whose loop body calls `mqtt_send_msg`), so the
embedding uses an explicit fuel parameter and returns `none` when fuel runs
out; termination with fuel linear in the queue length is proved below.

The transport (`mqtt_client.publish`) is modelled as an oracle
`Nat → QMsg → Bool` giving the success of the n-th publish call on a given
message; every publish call is recorded in the `attempts` trace of the
state, in call order, together with its result.
-/

namespace Maskcam

/-- QueuedMessage: the dictionaries `{"topic": topic, "message": message}`
stored in `mqtt_msg_queue`; the payload is kept opaque as a string. -/
structure QMsg where
  topic : String
  message : String
deriving DecidableEq

/-- Capacity of `mqtt_msg_queue = Queue(maxsize=100)` (line 22). -/
def capacity : Nat := 100

/-- Transport behavior: result code of the n-th `publish` call (counted from
process start) on a given message; `true` models paho result code 0. -/
def Oracle : Type := Nat → QMsg → Bool

/-- Mutable state of the module: the Outbox contents (head = oldest) and the
trace of transport publish attempts made so far, each with its result. -/
structure MState where
  queue : List QMsg
  attempts : List (QMsg × Bool)
deriving DecidableEq

/-- The inline bounded enqueue of `mqtt_send_msg` lines 83–89:
`if not mqtt_msg_queue.full(): put_nowait(msg)` — append at the tail iff
the queue is strictly below capacity, otherwise fail and store nothing. -/
def outbox_try_put (q : List QMsg) (m : QMsg) : Bool × List QMsg :=
  if q.length < capacity then (true, q ++ [m]) else (false, q)

/-- Record one transport publish call for message `m` in state `s`:
the oracle is consulted at the current call index and the attempt is
appended to the trace. Returns the result code (`true` = 0). -/
def publishCall (o : Oracle) (s : MState) (m : QMsg) : Bool × MState :=
  let ok := o s.attempts.length m
  (ok, { s with attempts := s.attempts ++ [(m, ok)] })

mutual

/-- Embedding of `mqtt_send_queue(mqtt_client)` (lines 25–31):
`success = True; while not empty and success: q_msg = get_nowait();
success = mqtt_send_msg(client, q_msg.topic, q_msg.message); return success`.
`connected` models whether `mqtt_client` is a live handle (non-`None`);
`none` means the fuel ran out before the run finished. -/
def mqtt_send_queueF : Nat → Oracle → Bool → MState → Option (Bool × MState)
  | 0, _, _, _ => none
  | f + 1, o, connected, s =>
    match s.queue with
    | [] => some (true, s)
    | m :: rest =>
      match mqtt_send_msgF f o connected { s with queue := rest } m true with
      | none => none
      | some (true, s2) => mqtt_send_queueF f o connected s2
      | some (false, s2) => some (false, s2)

/-- Embedding of `mqtt_send_msg(mqtt_client, topic, message, enqueue=True)`
(lines 68–92): return `False` at once when the client is `None`; otherwise
first drain the queue (result ignored), then publish; on success return
`True`; on failure enqueue (if `enq` and room), or drop, or discard, and
return `False`. -/
def mqtt_send_msgF : Nat → Oracle → Bool → MState → QMsg → Bool → Option (Bool × MState)
  | _, _, false, s, _, _ => some (false, s)
  | 0, _, true, _, _, _ => none
  | f + 1, o, true, s, m, enq =>
    match mqtt_send_queueF f o true s with
    | none => none
    | some (_, s1) =>
      let r := publishCall o s1 m
      if r.1 then some (true, r.2)
      else if enq then
        match outbox_try_put r.2.queue m with
        | (true, q2) => some (false, { r.2 with queue := q2 })
        | (false, _) => some (false, r.2)
      else some (false, r.2)

end

/-- Outcome of one `mqtt_send_msg` call, one constructor per branch of the
source (identified by the log line it prints): `notConnected` = "MQTT not
connected. Skipping message" (line 70), `sent` = "SENT" (line 78),
`enqueued` = "ENQUEUED" (line 84), `dropped` = "DROPPED: FULL QUEUE"
(line 88), `discarded` = "DISCARDED" (line 91). -/
inductive Outcome where
  | notConnected
  | sent
  | enqueued
  | dropped
  | discarded
deriving DecidableEq

/-- The same control flow as `mqtt_send_msgF`, but returning which branch of
`mqtt_send_msg` classified the call, instead of the source's boolean. -/
def mqtt_send_msg_outcomeF (f : Nat) (o : Oracle) (connected : Bool) (s : MState)
    (m : QMsg) (enq : Bool) : Option (Outcome × MState) :=
  match f, connected with
  | _, false => some (.notConnected, s)
  | 0, true => none
  | f + 1, true =>
    match mqtt_send_queueF f o true s with
    | none => none
    | some (_, s1) =>
      let r := publishCall o s1 m
      if r.1 then some (.sent, r.2)
      else if enq then
        match outbox_try_put r.2.queue m with
        | (true, q2) => some (.enqueued, { r.2 with queue := q2 })
        | (false, _) => some (.dropped, r.2)
      else some (.discarded, r.2)

/-- Observable side effects of the connect callback, in execution order. -/
inductive ConnAction where
  | subscribe (topics : List (String × Nat))
  | successCallback
  | drain
  | disconnect
deriving DecidableEq

/-- Connection state seen by the lifecycle manager after handling an event. -/
inductive ConnState where
  | connected
  | disconnected
deriving DecidableEq

/-- Embedding of `cb_on_connect(client, userdata, flags, code)` (lines 41–55):
on `code == 0`, subscribe (when `subscribe_to` is truthy), invoke
`cb_success` (when supplied), then run `mqtt_send_queue`; a failed drain only
raises a warning. On a non-zero code, only an error is reported. Returns the
ordered action trace, the `warned` flag of line 51, the resulting connection
state, and the resulting module state; `none` when the drain fuel ran out. -/
def cb_on_connect (f : Nat) (o : Oracle) (subscribeTo : List (String × Nat))
    (hasCb : Bool) (code : Nat) (s : MState) :
    Option (List ConnAction × Bool × ConnState × MState) :=
  if code = 0 then
    let subActs := if subscribeTo ≠ [] then [ConnAction.subscribe subscribeTo] else []
    let cbActs := if hasCb then [ConnAction.successCallback] else []
    match mqtt_send_queueF f o true s with
    | none => none
    | some (ok, s2) => some (subActs ++ cbActs ++ [ConnAction.drain], !ok, .connected, s2)
  else
    some ([], false, .disconnected, s)

/-- Embedding of `cb_on_disconnect` (lines 57–58): it only logs. -/
def cb_on_disconnect (_code : Nat) (s : MState) : List ConnAction × ConnState × MState :=
  ([ConnAction.disconnect], .disconnected, s)

/-! ## Basic lemmas about the embedding -/

@[simp]
lemma publishCall_snd_queue (o : Oracle) (s : MState) (m : QMsg) :
    (publishCall o s m).2.queue = s.queue := rfl

@[simp]
lemma publishCall_snd_attempts (o : Oracle) (s : MState) (m : QMsg) :
    (publishCall o s m).2.attempts = s.attempts ++ [(m, o s.attempts.length m)] := rfl

/-- Simultaneous structural facts about a finished drain and a finished send:
the drain never grows the queue, ends empty exactly on success, and (below
capacity) a failed send leaves its message re-enqueued, so the queue is
non-empty. -/
lemma send_bounds :
    ∀ f : Nat,
      (∀ (o : Oracle) (s : MState) (b : Bool) (s' : MState),
        mqtt_send_queueF f o true s = some (b, s') →
        s'.queue.length ≤ s.queue.length ∧
        (b = true → s'.queue = []) ∧
        (s.queue.length ≤ capacity → b = false → s'.queue ≠ [])) ∧
      (∀ (o : Oracle) (s : MState) (m : QMsg) (enq b : Bool) (s' : MState),
        mqtt_send_msgF f o true s m enq = some (b, s') →
        s'.queue.length ≤ s.queue.length + 1 ∧
        (b = true → s'.queue.length ≤ s.queue.length) ∧
        (s.queue.length < capacity → enq = true → b = false → s'.queue ≠ [])) := by
  intro f
  induction f with
  | zero =>
    constructor
    · intro o s b s' h
      simp [mqtt_send_queueF] at h
    · intro o s m enq b s' h
      simp [mqtt_send_msgF] at h
  | succ f ih =>
    constructor
    · rintro o ⟨q, att⟩ b s' h
      rcases q with _ | ⟨m, rest⟩
      · simp [mqtt_send_queueF] at h
        obtain ⟨rfl, rfl⟩ := h
        simp
      · simp only [mqtt_send_queueF] at h
        rcases hm : mqtt_send_msgF f o true ⟨rest, att⟩ m true with _ | ⟨b1, s2⟩
        · rw [hm] at h; simp at h
        · rw [hm] at h
          have hQ := ih.2 o ⟨rest, att⟩ m true b1 s2 hm
          rcases b1 with _ | _
          · simp at h
            obtain ⟨rfl, rfl⟩ := h
            have hQ1 : s2.queue.length ≤ rest.length + 1 := by simpa using hQ.1
            refine ⟨by simp; omega, by simp, ?_⟩
            intro hcap _
            exact hQ.2.2 (by simp at hcap ⊢; omega) rfl rfl
          · simp only at h
            have hP := ih.1 o s2 b s' h
            have h2 : s2.queue.length ≤ rest.length := by
              simpa using hQ.2.1 rfl
            refine ⟨by simp; omega, hP.2.1, ?_⟩
            intro hcap hb
            exact hP.2.2 (by simp at hcap; omega) hb
    · intro o s m enq b s' h
      rw [mqtt_send_msgF] at h
      rcases hd : mqtt_send_queueF f o true s with _ | ⟨b1, s1⟩
      · rw [hd] at h; simp at h
      · rw [hd] at h
        have hP := ih.1 o s b1 s1 hd
        simp only [publishCall] at h
        rcases hok : o s1.attempts.length m with _ | _
        · -- publish failed
          rw [hok] at h
          rcases enq with _ | _
          · -- enqueue = false: discarded
            simp at h
            obtain ⟨rfl, rfl⟩ := h
            exact ⟨by simp; omega, by simp, by simp⟩
          · -- enqueue = true: try to put
            simp only [outbox_try_put] at h
            by_cases hroom : s1.queue.length < capacity
            · simp [hroom] at h
              obtain ⟨rfl, rfl⟩ := h
              refine ⟨by simp; omega, by simp, ?_⟩
              intro _ _ _
              simp
            · simp [hroom] at h
              obtain ⟨rfl, rfl⟩ := h
              refine ⟨by simp; omega, by simp, ?_⟩
              intro hcap _ _
              exact absurd (lt_of_le_of_lt hP.1 hcap) hroom
        · -- publish succeeded
          rw [hok] at h
          simp at h
          obtain ⟨rfl, rfl⟩ := h
          exact ⟨by simp; omega, by intro _; simpa using hP.1, by simp⟩

/-- Adding fuel never changes the result of a finished run. -/
lemma send_mono :
    ∀ f : Nat,
      (∀ (o : Oracle) (c : Bool) (s : MState) (r : Bool × MState),
        mqtt_send_queueF f o c s = some r → mqtt_send_queueF (f + 1) o c s = some r) ∧
      (∀ (o : Oracle) (c : Bool) (s : MState) (m : QMsg) (enq : Bool) (r : Bool × MState),
        mqtt_send_msgF f o c s m enq = some r → mqtt_send_msgF (f + 1) o c s m enq = some r) := by
  intro f
  induction f with
  | zero =>
    constructor
    · intro o c s r h
      simp [mqtt_send_queueF] at h
    · intro o c s m enq r h
      rcases c with _ | _
      · exact h
      · simp [mqtt_send_msgF] at h
  | succ f ih =>
    constructor
    · rintro o c ⟨q, att⟩ r h
      rcases q with _ | ⟨m, rest⟩
      · exact h
      · simp only [mqtt_send_queueF] at h ⊢
        rcases hm : mqtt_send_msgF f o c ⟨rest, att⟩ m true with _ | ⟨b1, s2⟩
        · rw [hm] at h; simp at h
        · rw [hm] at h
          rw [ih.2 o c ⟨rest, att⟩ m true (b1, s2) hm]
          rcases b1 with _ | _
          · exact h
          · simp only at h ⊢
            exact ih.1 o c s2 r h
    · intro o c s m enq r h
      rcases c with _ | _
      · exact h
      · rw [mqtt_send_msgF] at h
        rw [show f + 1 + 1 = (f + 1) + 1 from rfl, mqtt_send_msgF]
        rcases hd : mqtt_send_queueF f o true s with _ | ⟨b1, s1⟩
        · rw [hd] at h; simp at h
        · rw [hd] at h
          rw [ih.1 o true s (b1, s1) hd]
          exact h

/-- Fuel monotone in ≤ form. -/
lemma send_queueF_mono_le {f g : Nat} (hfg : f ≤ g) (o : Oracle) (c : Bool)
    (s : MState) (r : Bool × MState) (h : mqtt_send_queueF f o c s = some r) :
    mqtt_send_queueF g o c s = some r := by
  induction g with
  | zero =>
    have : f = 0 := Nat.le_zero.mp hfg
    subst this
    exact h
  | succ g ihg =>
    rcases Nat.lt_or_ge f (g + 1) with hlt | hge
    · exact (send_mono g).1 o c s r (ihg (Nat.lt_succ_iff.mp hlt))
    · have : f = g + 1 := Nat.le_antisymm hfg hge
      subst this
      exact h

/-- Fuel `2·length + 1` always suffices for a drain with a live client. -/
lemma send_queueF_suff :
    ∀ L : Nat, ∀ (o : Oracle) (s : MState), s.queue.length ≤ L →
      ∃ r : Bool × MState, mqtt_send_queueF (2 * L + 1) o true s = some r := by
  intro L
  induction L with
  | zero =>
    rintro o ⟨q, att⟩ hL
    simp at hL
    subst hL
    exact ⟨(true, ⟨[], att⟩), by simp [mqtt_send_queueF]⟩
  | succ L ihL =>
    rintro o ⟨q, att⟩ hL
    rcases q with _ | ⟨m, rest⟩
    · exact ⟨(true, ⟨[], att⟩), by rw [show 2 * (L + 1) + 1 = (2 * L + 2) + 1 by ring]; simp [mqtt_send_queueF]⟩
    · simp at hL
      -- the nested send has fuel 2L + 2, whose inner drain has fuel 2L + 1
      obtain ⟨⟨b1, s1⟩, hd⟩ := ihL o ⟨rest, att⟩ (by simpa using hL)
      have hmsg : ∃ rm : Bool × MState,
          mqtt_send_msgF (2 * L + 1 + 1) o true ⟨rest, att⟩ m true = some rm := by
        rw [mqtt_send_msgF, hd]
        rcases hok : o s1.attempts.length m with _ | _ <;>
          simp [publishCall, hok, outbox_try_put]
        by_cases hroom : s1.queue.length < capacity <;> simp [hroom]
      obtain ⟨⟨b2, s2⟩, hm⟩ := hmsg
      rw [show 2 * (L + 1) + 1 = (2 * L + 2) + 1 by ring]
      rw [mqtt_send_queueF]
      simp only
      rw [show 2 * L + 2 = 2 * L + 1 + 1 by ring, hm]
      rcases b2 with _ | _
      · exact ⟨(false, s2), rfl⟩
      · simp only
        have hlen : s2.queue.length ≤ L := by
          have := ((send_bounds (2 * L + 1 + 1)).2 o ⟨rest, att⟩ m true true s2 hm).2.1 rfl
          simp at this
          omega
        obtain ⟨r2, h2⟩ := ihL o s2 hlen
        exact ⟨r2, send_queueF_mono_le (by omega) o true s2 r2 h2⟩

lemma last_of_append_single {α : Type} (l : List α) (a : α) :
    (l ++ [a]).getLast? = some a := by
  rw [List.getLast?_append_cons]
  rfl

/-- A send with a live client always yields a result once its inner drain
does, with one more unit of fuel. -/
lemma send_msgF_succ_some (f : Nat) (o : Oracle) (s : MState) (m : QMsg) (enq : Bool)
    (h : ∃ r : Bool × MState, mqtt_send_queueF f o true s = some r) :
    ∃ r : Bool × MState, mqtt_send_msgF (f + 1) o true s m enq = some r := by
  obtain ⟨⟨b1, s1⟩, hd⟩ := h
  rw [mqtt_send_msgF, hd]
  rcases hok : o s1.attempts.length m with _ | _
  · rcases enq with _ | _
    · simp [publishCall, hok]
    · simp [publishCall, hok, outbox_try_put]
      by_cases hroom : s1.queue.length < capacity <;> simp [hroom]
  · simp [publishCall, hok]

/-! ## Claims -/

/-- Claim C4: the Outbox length never exceeds the fixed capacity 100 under
any sequence of enqueue attempts; an enqueue attempted at capacity returns
failure and leaves the contents unchanged, storing nothing. -/
theorem outbox_capacity_invariant (q0 : List QMsg) (ms : List QMsg)
    (h0 : q0.length ≤ capacity) :
    (ms.foldl (fun q m => (outbox_try_put q m).2) q0).length ≤ capacity ∧
    capacity = 100 ∧
    (∀ (q : List QMsg) (m : QMsg), q.length = capacity →
      outbox_try_put q m = (false, q)) := by
  refine ⟨?_, rfl, ?_⟩
  · induction ms generalizing q0 with
    | nil => exact h0
    | cons m ms ih =>
      simp only [List.foldl_cons]
      apply ih
      by_cases hr : q0.length < capacity
      · simp [outbox_try_put, hr]
        omega
      · simpa [outbox_try_put, hr] using h0
  · intro q m hq
    simp [outbox_try_put, hq]

/-- Witness for C4 at a concrete sequence of enqueue attempts. -/
theorem outbox_capacity_invariant_witness :
    ([⟨"hello", "h"⟩] : List QMsg).length ≤ capacity ∧
    (([⟨"alerts", "a"⟩, ⟨"commands", "c"⟩] : List QMsg).foldl
        (fun q m => (outbox_try_put q m).2) [⟨"hello", "h"⟩]).length ≤ capacity :=
  ⟨by decide,
   (outbox_capacity_invariant [⟨"hello", "h"⟩] [⟨"alerts", "a"⟩, ⟨"commands", "c"⟩]
      (by decide)).1⟩

/-- Claim C7: a finished drain with a live client returns `true` exactly when
the Outbox is empty at loop exit, for every transport behavior, provided the
Outbox respects its capacity invariant at entry. -/
theorem drain_true_iff_empty (f : Nat) (o : Oracle) (s : MState) (b : Bool) (s' : MState)
    (hcap : s.queue.length ≤ capacity)
    (h : mqtt_send_queueF f o true s = some (b, s')) :
    b = true ↔ s'.queue = [] := by
  constructor
  · exact ((send_bounds f).1 o s b s' h).2.1
  · intro he
    by_contra hb
    have hb' : b = false := by
      rcases b with _ | _
      · rfl
      · exact absurd rfl hb
    exact ((send_bounds f).1 o s b s' h).2.2 hcap hb' he

/-- Witness for C7: a one-message drain that succeeds, returning true with an
emptied Outbox. -/
theorem drain_true_iff_empty_witness :
    ((⟨[⟨"hello", "h"⟩], []⟩ : MState).queue.length ≤ capacity ∧
      mqtt_send_queueF 3 (fun _ _ => true) true ⟨[⟨"hello", "h"⟩], []⟩ =
        some (true, ⟨[], [(⟨"hello", "h"⟩, true)]⟩)) ∧
    (true = true ↔ (⟨[], [(⟨"hello", "h"⟩, true)]⟩ : MState).queue = []) :=
  ⟨⟨by decide, by decide⟩,
   drain_true_iff_empty 3 (fun _ _ => true) ⟨[⟨"hello", "h"⟩], []⟩ true
     ⟨[], [(⟨"hello", "h"⟩, true)]⟩ (by decide) (by decide)⟩

/-- Claim C10: the mutually recursive pair `mqtt_send_queue` / `mqtt_send_msg`
terminates on every finite Outbox state and every transport behavior: fuel
linear in the Outbox length at entry (each unit of fuel paying for one call,
loop steps included) already produces a finished run of either function. -/
theorem send_pair_terminates (o : Oracle) (s : MState) (m : QMsg) (enq : Bool) :
    (∃ r : Bool × MState, mqtt_send_queueF (2 * s.queue.length + 1) o true s = some r) ∧
    (∃ r : Bool × MState, mqtt_send_msgF (2 * s.queue.length + 2) o true s m enq = some r) := by
  refine ⟨send_queueF_suff s.queue.length o s le_rfl, ?_⟩
  exact send_msgF_succ_some (2 * s.queue.length + 1) o s m enq
    (send_queueF_suff s.queue.length o s le_rfl)

/-- Claim C9: `mqtt_send_msg` communicates only a boolean: it returns `true`
exactly when its branch classification is `sent` (the transport publish call
was made and reported code 0, visible as the last logged attempt); the
`notConnected`, `enqueued`, `dropped` and `discarded` branches all return
`false`, the last two leaving the failed attempt as the last logged one and
the first leaving the state untouched. -/
theorem send_msg_bool_iff_sent (f : Nat) (o : Oracle) (c : Bool) (s : MState)
    (m : QMsg) (enq : Bool) (oc : Outcome) (s' : MState)
    (h : mqtt_send_msg_outcomeF f o c s m enq = some (oc, s')) :
    mqtt_send_msgF f o c s m enq = some (oc == Outcome.sent, s') ∧
    (oc = Outcome.sent → s'.attempts.getLast? = some (m, true)) ∧
    ((oc = Outcome.enqueued ∨ oc = Outcome.dropped ∨ oc = Outcome.discarded) →
      s'.attempts.getLast? = some (m, false)) ∧
    (oc = Outcome.notConnected → s' = s) := by
  rcases c with _ | _
  · rcases f with _ | f <;>
      · simp [mqtt_send_msg_outcomeF] at h
        obtain ⟨rfl, rfl⟩ := h
        refine ⟨rfl, by simp, by simp, fun _ => rfl⟩
  · rcases f with _ | f
    · simp [mqtt_send_msg_outcomeF] at h
    · rw [mqtt_send_msg_outcomeF] at h
      rw [mqtt_send_msgF]
      rcases hd : mqtt_send_queueF f o true s with _ | ⟨b1, s1⟩
      · rw [hd] at h; simp at h
      · rw [hd] at h
        simp only [publishCall] at h ⊢
        by_cases hok : o s1.attempts.length m = true
        · simp only [hok] at h ⊢
          simp at h
          obtain ⟨rfl, rfl⟩ := h
          exact ⟨by simp, fun _ => last_of_append_single _ _, by simp, by simp⟩
        · rw [Bool.not_eq_true] at hok
          simp only [hok] at h ⊢
          rcases enq with _ | _
          · simp at h
            obtain ⟨rfl, rfl⟩ := h
            exact ⟨by simp, by simp, fun _ => last_of_append_single _ _, by simp⟩
          · by_cases hroom : s1.queue.length < capacity
            · simp [outbox_try_put, hroom] at h
              obtain ⟨rfl, rfl⟩ := h
              exact ⟨by simp [outbox_try_put, hroom], by simp,
                fun _ => last_of_append_single _ _, by simp⟩
            · simp [outbox_try_put, hroom] at h
              obtain ⟨rfl, rfl⟩ := h
              exact ⟨by simp [outbox_try_put, hroom], by simp,
                fun _ => last_of_append_single _ _, by simp⟩

/-- Witness for C9: a connected publish that succeeds, returning `true` with
the sent attempt logged last. -/
theorem send_msg_bool_iff_sent_witness :
    (mqtt_send_msg_outcomeF 2 (fun _ _ => true) true ⟨[], []⟩ ⟨"hello", "h"⟩ true =
      some (Outcome.sent, ⟨[], [(⟨"hello", "h"⟩, true)]⟩)) ∧
    mqtt_send_msgF 2 (fun _ _ => true) true ⟨[], []⟩ ⟨"hello", "h"⟩ true =
      some (Outcome.sent == Outcome.sent, ⟨[], [(⟨"hello", "h"⟩, true)]⟩) :=
  ⟨by decide,
   (send_msg_bool_iff_sent 2 (fun _ _ => true) true ⟨[], []⟩ ⟨"hello", "h"⟩ true
      Outcome.sent ⟨[], [(⟨"hello", "h"⟩, true)]⟩ (by decide)).1⟩

/-- Claim C6: on a connect acknowledgment with success code 0 the handler
re-applies the subscriptions, invokes the caller-supplied callback, and runs
the drain, in that order; a failed drain only sets the warning flag and the
connection stays connected — no disconnect is triggered. -/
theorem on_connect_success_sequence (f : Nat) (o : Oracle)
    (subs : List (String × Nat)) (hasCb : Bool) (s : MState) (b : Bool) (s' : MState)
    (h : mqtt_send_queueF f o true s = some (b, s')) :
    cb_on_connect f o subs hasCb 0 s =
      some ((if subs ≠ [] then [ConnAction.subscribe subs] else []) ++
            (if hasCb then [ConnAction.successCallback] else []) ++
            [ConnAction.drain], !b, ConnState.connected, s') ∧
    ConnAction.disconnect ∉
      ((if subs ≠ [] then [ConnAction.subscribe subs] else []) ++
       (if hasCb then [ConnAction.successCallback] else []) ++
       [ConnAction.drain]) ∧
    (b = false → (!b) = true) := by
  refine ⟨by simp [cb_on_connect, h], ?_, by simp⟩
  simp only [List.mem_append, List.mem_singleton]
  rintro (h1 | h2)
  · rcases h1 with h1 | h1
    · by_cases hs : subs = [] <;> simp [hs] at h1
    · by_cases hc : hasCb <;> simp [hc] at h1
  · simp at h2

/-- Witness for C6: a success acknowledgment with one subscription, a success
callback, and an empty Outbox to drain. -/
theorem on_connect_success_sequence_witness :
    (mqtt_send_queueF 1 (fun _ _ => false) true ⟨[], []⟩ = some (true, ⟨[], []⟩)) ∧
    cb_on_connect 1 (fun _ _ => false) [("commands", 0)] true 0 ⟨[], []⟩ =
      some ((if ([("commands", 0)] : List (String × Nat)) ≠ [] then
               [ConnAction.subscribe [("commands", 0)]] else []) ++
            (if true then [ConnAction.successCallback] else []) ++
            [ConnAction.drain], !true, ConnState.connected, ⟨[], []⟩) :=
  ⟨by decide,
   (on_connect_success_sequence 1 (fun _ _ => false) [("commands", 0)] true
      ⟨[], []⟩ true ⟨[], []⟩ (by decide)).1⟩

/-- Counterexample to claim C3: a publish with a null client, enqueue enabled
and an Outbox (empty, hence) below capacity takes the not-connected skip
branch — nothing is appended and the outcome is not `enqueued`. -/
theorem publish_null_client_cex :
    mqtt_send_msg_outcomeF 5 (fun _ _ => true) false ⟨[], []⟩ ⟨"alerts", "a"⟩ true =
      some (Outcome.notConnected, ⟨[], []⟩) ∧
    mqtt_send_msg_outcomeF 5 (fun _ _ => true) false ⟨[], []⟩ ⟨"alerts", "a"⟩ true ≠
      some (Outcome.enqueued, ⟨[⟨"alerts", "a"⟩], []⟩) := by
  constructor <;> decide

/-- Claim C3 (amended): a publish with a null client, enqueue enabled and
room in the Outbox attempts no transport send, stores nothing, leaves the
state untouched and returns `false` (outcome `notConnected`). -/
theorem publish_null_client_skips (f : Nat) (o : Oracle) (s : MState) (m : QMsg)
    (_hroom : s.queue.length < capacity) :
    mqtt_send_msg_outcomeF f o false s m true = some (Outcome.notConnected, s) ∧
    mqtt_send_msgF f o false s m true = some (false, s) := by
  rcases f with _ | f <;> exact ⟨rfl, rfl⟩

/-- Witness for the amended C3 at an Outbox with room. -/
theorem publish_null_client_skips_witness :
    ((⟨[⟨"hello", "x"⟩], []⟩ : MState).queue.length < capacity) ∧
    mqtt_send_msg_outcomeF 7 (fun _ _ => true) false ⟨[⟨"hello", "x"⟩], []⟩
        ⟨"alerts", "a"⟩ true =
      some (Outcome.notConnected, ⟨[⟨"hello", "x"⟩], []⟩) :=
  ⟨by decide,
   (publish_null_client_skips 7 (fun _ _ => true) ⟨[⟨"hello", "x"⟩], []⟩
      ⟨"alerts", "a"⟩ (by decide)).1⟩

/-- Counterexample to claim C8: with `enqueue=False` and no live connection
the outcome is the not-connected skip, not `discarded`. -/
theorem publish_noenqueue_null_client_cex :
    mqtt_send_msg_outcomeF 4 (fun _ _ => false) false ⟨[⟨"hello", "m"⟩], []⟩
        ⟨"video-files", "v"⟩ false =
      some (Outcome.notConnected, ⟨[⟨"hello", "m"⟩], []⟩) ∧
    Outcome.notConnected ≠ Outcome.discarded := by
  constructor <;> decide

/-- Claim C8 (amended): with `enqueue=False` and no live connection the
outcome is always `notConnected` (the skip branch), the return value is
`false`, no send is attempted and the Outbox — indeed the whole state — is
left exactly as it was. -/
theorem publish_noenqueue_null_client (f : Nat) (o : Oracle) (s : MState) (m : QMsg) :
    mqtt_send_msg_outcomeF f o false s m false = some (Outcome.notConnected, s) ∧
    mqtt_send_msgF f o false s m false = some (false, s) := by
  rcases f with _ | f <;> exact ⟨rfl, rfl⟩

/-- Claim C1 (code evaluated at the failing input): draining five messages
whose third always fails at the transport does not stop at the failure:
the code recursively sends the fourth and the fifth first, keeps retrying
the third and re-enqueues it at the tail, ending with Outbox `[m3]` instead
of the specified `[m3, m4, m5]`. The attempt trace is `m5, m4, m3(fail),
m2, m3(fail), m1, m3(fail)`. -/
theorem drain_partial_failure_run :
    mqtt_send_queueF 11 (fun _ m => !(m.topic == "t3")) true
        ⟨[⟨"t1", "m1"⟩, ⟨"t2", "m2"⟩, ⟨"t3", "m3"⟩, ⟨"t4", "m4"⟩, ⟨"t5", "m5"⟩], []⟩ =
      some (false,
        ⟨[⟨"t3", "m3"⟩],
         [(⟨"t5", "m5"⟩, true), (⟨"t4", "m4"⟩, true), (⟨"t3", "m3"⟩, false),
          (⟨"t2", "m2"⟩, true), (⟨"t3", "m3"⟩, false), (⟨"t1", "m1"⟩, true),
          (⟨"t3", "m3"⟩, false)]⟩) ∧
    ([⟨"t3", "m3"⟩] : List QMsg) ≠ [⟨"t3", "m3"⟩, ⟨"t4", "m4"⟩, ⟨"t5", "m5"⟩] := by
  constructor <;> decide

/-- Claim C2 (code evaluated at the failing input): an on-connect drain of
`[a, b]` in which every transport send succeeds does empty the Outbox, but
it hands the messages to the transport as `b` then `a` — the reverse of the
enqueue order. -/
theorem drain_all_success_run :
    mqtt_send_queueF 5 (fun _ _ => true) true ⟨[⟨"hello", "a"⟩, ⟨"alerts", "b"⟩], []⟩ =
      some (true, ⟨[], [(⟨"alerts", "b"⟩, true), (⟨"hello", "a"⟩, true)]⟩) ∧
    ([(⟨"alerts", "b"⟩, true), (⟨"hello", "a"⟩, true)] : List (QMsg × Bool)) ≠
      [(⟨"hello", "a"⟩, true), (⟨"alerts", "b"⟩, true)] := by
  constructor <;> decide

/-- Claim C5 (code evaluated at the failing input): publishing a new message
`z` while `x` (older) and `y` are buffered transmits `y` before `x` — two
buffered messages leave in an order different from their enqueue order (the
new message does come last). -/
theorem publish_reorders_backlog_run :
    mqtt_send_msgF 7 (fun _ _ => true) true
        ⟨[⟨"receive-from-jetson", "x"⟩, ⟨"commands", "y"⟩], []⟩ ⟨"video-files", "z"⟩ true =
      some (true,
        ⟨[], [(⟨"commands", "y"⟩, true), (⟨"receive-from-jetson", "x"⟩, true),
              (⟨"video-files", "z"⟩, true)]⟩) ∧
    ([(⟨"commands", "y"⟩, true), (⟨"receive-from-jetson", "x"⟩, true)] :
        List (QMsg × Bool)) ≠
      [(⟨"receive-from-jetson", "x"⟩, true), (⟨"commands", "y"⟩, true)] := by
  constructor <;> decide

end Maskcam
